import Mathlib

/-!
# Verification of the serial-gps NMEA adapter core (`src/main.ts`)

A shallow embedding of the pure and stateful core of the adapter:

* `verifyChecksum`, `nmeaToDecimal`, `parseNmeaDateTime` (pure helpers,
  `src/main.ts` lines 6–83);
* the per-sentence decoder `parseData` (lines 324–445);
* the debounce gate `setStateIfChangedAsync` (lines 312–322);
* the byte-to-line framer `processReceivedData` (lines 447–463);
* the reconnect-timer discipline of `openPort` (lines 484–514) and the
  effect of `closePort` (lines 288–310) on the adapter state.

Text is modelled as `Str := List Char` (JavaScript strings, one `Char` per
UTF-16 code unit; all inputs of interest are ASCII).  JavaScript numbers are
modelled as exact rationals, with `NaN` represented by `Option.none`
(`JNum := Option ℚ`): the arithmetic performed by the adapter
(`deg + min/60`, `knots * 1.852`, epoch-millisecond sums) is decimal and is
captured exactly by `ℚ`; IEEE-754 rounding is below the granularity of this
development, so the specification's `≈` statements become exact equalities.
-/

namespace SerialGps

/-- JavaScript strings, one entry per UTF-16 code unit. -/
abbrev Str := List Char

/-- Coerce a Lean string literal to the model's string type. -/
def strOf (s : String) : Str := s.data

/-- Whitespace as recognised by JavaScript `trim` / number parsing
(ASCII fragment: space, tab, newline, carriage return, vertical tab,
form feed, plus NBSP). -/
def isJsWs (c : Char) : Bool :=
  c = ' ' || c = '\t' || c = '\n' || c = '\r' ||
  c = Char.ofNat 11 || c = Char.ofNat 12 || c = Char.ofNat 160

/-- JavaScript `String.prototype.trim`: drop whitespace at both ends. -/
def jsTrim (s : Str) : Str :=
  ((s.dropWhile isJsWs).reverse.dropWhile isJsWs).reverse

/-- ASCII decimal digit test (JS number grammars accept only `0`–`9`). -/
def isDigit (c : Char) : Bool := '0' ≤ c && c ≤ '9'

/-- Numeric value of a decimal digit character. -/
def digitVal (c : Char) : Nat := c.toNat - '0'.toNat

/-- Value of a list of decimal digit characters, most significant first. -/
def natOfDigits (ds : Str) : Nat :=
  ds.foldl (fun a c => a * 10 + digitVal c) 0

/-- Optional leading sign of a JavaScript numeric literal:
returns the sign and the remaining characters. -/
def splitSign : Str → Int × Str
  | '-' :: r => (-1, r)
  | '+' :: r => (1, r)
  | s => (1, s)

/-- JavaScript `parseInt(s, 10)`: skip leading whitespace, optional sign,
then the longest prefix of decimal digits; `NaN` (here `none`) if that
prefix is empty. -/
def jsParseInt (s : Str) : Option Int :=
  let s := s.dropWhile isJsWs
  let (sgn, s) := splitSign s
  let ds := s.takeWhile isDigit
  if ds.isEmpty then none else some (sgn * (natOfDigits ds : Int))

/-- JavaScript `parseFloat(s)`: skip leading whitespace, optional sign, then
the longest decimal-literal prefix `digits [. digits]` or `. digits`; `NaN`
(here `none`) if no digit occurs.  (The exponent and `Infinity` forms of the
full JS grammar never occur in NMEA fields and are not modelled.) -/
def jsParseFloat (s : Str) : Option ℚ :=
  let s := s.dropWhile isJsWs
  let (sgn, s) := splitSign s
  let intDs := s.takeWhile isDigit
  let rest := s.drop intDs.length
  match rest with
  | '.' :: r =>
    let fracDs := r.takeWhile isDigit
    if intDs.isEmpty && fracDs.isEmpty then none
    else some ((sgn : ℚ) * ((natOfDigits intDs : ℚ) +
      (natOfDigits fracDs : ℚ) / (10 : ℚ) ^ fracDs.length))
  | _ => if intDs.isEmpty then none else some ((sgn : ℚ) * (natOfDigits intDs : ℚ))

/-- JS `x || 0` applied to a parse result: `NaN` (and `0` itself) become `0`. -/
def jsOrZero (x : Option ℚ) : ℚ := x.getD 0

/-- JS `x || 0` for an integer parse result. -/
def jsOrZeroInt (x : Option Int) : Int := x.getD 0

/-- Split a string at the first occurrence of `c` (JS `indexOf` + the two
`substring` calls around it): `none` when `c` does not occur, otherwise
`(before, after)` with the separator removed. -/
def splitAtFirst (c : Char) : Str → Option (Str × Str)
  | [] => none
  | d :: rest =>
    if d = c then some ([], rest)
    else match splitAtFirst c rest with
      | none => none
      | some (p, a) => some (d :: p, a)

/-- The payload whose XOR is compared against the checksum text: everything
before the first `*`, or the whole body when there is none. -/
def payloadOf (s : Str) : Str :=
  match splitAtFirst '*' s with
  | some (p, _) => p
  | none => s

/-- Uppercase hex digit characters `0`–`9`, `A`–`F`. -/
def hexDigitChar (n : Nat) : Char :=
  match n with
  | 0 => '0' | 1 => '1' | 2 => '2' | 3 => '3' | 4 => '4'
  | 5 => '5' | 6 => '6' | 7 => '7' | 8 => '8' | 9 => '9'
  | 10 => 'A' | 11 => 'B' | 12 => 'C' | 13 => 'D' | 14 => 'E'
  | _ => 'F'

/-- Digits of `n` in base 16, most significant first, with enough fuel;
structural recursion on the fuel so that the kernel evaluates it. -/
def toHexFuel : Nat → Nat → Str
  | 0, _ => []
  | fuel + 1, n =>
    if n < 16 then [hexDigitChar n]
    else toHexFuel fuel (n / 16) ++ [hexDigitChar (n % 16)]

/-- Digits of `n` in base 16, most significant first
(JS `n.toString(16).toUpperCase()`; `0` renders as `"0"`). -/
def toHexAux (n : Nat) : Str := toHexFuel (n + 1) n

/-- JS `String.prototype.padStart(2, '0')`. -/
def padStart2 (s : Str) : Str :=
  if 2 ≤ s.length then s else List.replicate (2 - s.length) '0' ++ s

/-- ASCII-only `toUpperCase` (the only characters compared are hex digits). -/
def toUpperChar (c : Char) : Char :=
  if 'a' ≤ c && c ≤ 'z' then Char.ofNat (c.toNat - 32) else c

/-- XOR of the UTF-16 code units of a string (`chk ^= payload.charCodeAt(i)`). -/
def xorFold (s : Str) : Nat := s.foldl (fun a c => a ^^^ c.toNat) 0

/-- Model of `verifyChecksum` (`src/main.ts` lines 6–19): a body with no `*` is
accepted; otherwise XOR the characters before the first `*`, render as
zero-padded uppercase hex, and compare with the trimmed, uppercased text
after the `*`. -/
def verifyChecksum (sentence : Str) : Bool :=
  match splitAtFirst '*' sentence with
  | none => true
  | some (payload, rest) =>
    let chkStr := jsTrim rest
    let hex := padStart2 (toHexAux (xorFold payload))
    hex = chkStr.map toUpperChar

/-- Model of `nmeaToDecimal` (`src/main.ts` lines 21–53): degree/minute coordinate
string plus hemisphere letter to signed decimal degrees. -/
def nmeaToDecimal (coord : Str) (hemi : Str) : Option ℚ :=
  if coord.isEmpty then none
  else if ¬ coord.contains '.' then none
  else
    let degLen : Nat := if hemi = strOf "N" ∨ hemi = strOf "S" then 2 else 3
    if coord.length ≤ degLen then none
    else
      let degStr := coord.take degLen
      let minStr := coord.drop degLen
      match jsParseInt degStr, jsParseFloat minStr with
      | some deg, some mn =>
        let val : ℚ := (deg : ℚ) + mn / 60
        some (if hemi = strOf "S" ∨ hemi = strOf "W" then -val else val)
      | _, _ => none

/-! ## Date and time (`parseNmeaDateTime`, lines 55–83, and `Date.UTC`) -/

/-- A UTC calendar date, month 0-based as in JavaScript (`new Date()`
fallback: `getUTCFullYear`/`getUTCMonth`/`getUTCDate`). -/
structure Ymd where
  year : Int
  month : Int
  day : Int
deriving DecidableEq, Repr

/-- Days since 1970-01-01 of the civil date `y-m-d` (month `1`–`12`);
Howard Hinnant's `days_from_civil`, the arithmetic underlying the
ECMAScript `MakeDay` operation. -/
def daysFromCivil (y m d : Int) : Int :=
  let y' := if m ≤ 2 then y - 1 else y
  let era := y'.fdiv 400
  let yoe := y' - era * 400
  let doy := (153 * (if 2 < m then m - 3 else m + 9) + 2).fdiv 5 + d - 1
  let doe := yoe * 365 + yoe.fdiv 4 - yoe.fdiv 100 + doy
  era * 146097 + doe - 719468

/-- ECMAScript `Date.UTC(year, month, day, hh, mi, ss, ms)` on integer
arguments: `MakeDay` normalises the month into `0`–`11` carrying whole
years, offsets by `day - 1`, and `MakeTime` adds the time parts
(the `±8.64e15` range clip, irrelevant here, is not modelled). -/
def dateUTC (year month day hh mi ss ms : Int) : Int :=
  let ym := year + month.fdiv 12
  let mn := month.emod 12
  (daysFromCivil ym (mn + 1) 1 + (day - 1)) * 86400000 +
    hh * 3600000 + mi * 60000 + ss * 1000 + ms

/-- The components assembled by `parseNmeaDateTime` before the final
`Date.UTC` call; a `none` component is a `NaN` that arose from parsing. -/
structure DtParts where
  year : Option Int
  month : Option Int
  day : Option Int
  hh : Option Int
  mi : Option Int
  ss : Option Int
  ms : Option Int
deriving DecidableEq, Repr

/-- The `Date.UTC` call lifted to possibly-`NaN` components: any `NaN` argument
makes the result `NaN` (`none`). -/
def dateUTCj (p : DtParts) : Option Int :=
  match p.year, p.month, p.day, p.hh, p.mi, p.ss, p.ms with
  | some y, some mo, some d, some h, some mi, some s, some ms =>
    some (dateUTC y mo d h mi s ms)
  | _, _, _, _, _, _, _ => none

/-- JS `s || d` on strings: the empty string is falsy. -/
def orStr (s d : Str) : Str := if s.isEmpty then d else s

/-- JS `s.slice(a, b)` for non-negative indices. -/
def jsSlice (s : Str) (a b : Nat) : Str := (s.take b).drop a

/-- JS `s.slice(a)` for a non-negative index. -/
def jsSliceFrom (s : Str) (a : Nat) : Str := s.drop a

/-- JS `Math.floor` on a possibly-`NaN` number. -/
def jsFloor (x : Option ℚ) : Option Int := x.map (fun q => ⌊q⌋)

/-- JS `Math.round` on a possibly-`NaN` number: `⌊x + 1/2⌋`
(ties toward `+∞`, as in ECMAScript). -/
def jsRound (x : Option ℚ) : Option Int := x.map (fun q => ⌊q + 1/2⌋)

/-- The year/month/day/time components computed by `parseNmeaDateTime`
(`src/main.ts` lines 60–80) for non-empty `timeStr`.  `today` stands for
the current UTC date read from `new Date()` in the no-date fallback. -/
def parseNmeaDateTimeParts (today : Ymd) (timeStr dateStr : Str) : DtParts :=
  let hh := jsParseInt (orStr (jsSlice timeStr 0 2) (strOf "0"))
  let mi := jsParseInt (orStr (jsSlice timeStr 2 4) (strOf "0"))
  let secFloat := jsParseFloat (orStr (jsSliceFrom timeStr 4) (strOf "0"))
  let ss := jsFloor secFloat
  let ms := jsRound (match secFloat, ss with
    | some q, some s => some ((q - (s : ℚ)) * 1000)
    | _, _ => none)
  if ¬ dateStr.isEmpty ∧ 6 ≤ dateStr.length then
    let day := jsParseInt (orStr (jsSlice dateStr 0 2) (strOf "1"))
    let month := (jsParseInt (orStr (jsSlice dateStr 2 4) (strOf "1"))).map (· - 1)
    let yy := jsParseInt (orStr (jsSlice dateStr 4 6) (strOf "0"))
    let year := yy.map (fun v => if 70 ≤ v then 1900 + v else 2000 + v)
    ⟨year, month, day, hh, mi, ss, ms⟩
  else
    ⟨some today.year, some today.month, some today.day, hh, mi, ss, ms⟩

/-- Model of `parseNmeaDateTime` (`src/main.ts` lines 55–83).  Outer `none` is the
`null` returned for an absent/empty time string; the inner `Option Int`
is the epoch-millisecond value, `none` when it is `NaN`. -/
def parseNmeaDateTime (today : Ymd) (timeStr dateStr : Str) :
    Option (Option Int) :=
  if timeStr.isEmpty then none
  else some (dateUTCj (parseNmeaDateTimeParts today timeStr dateStr))

/-! ## State values and the debounce gate (`setStateIfChangedAsync`) -/

/-- A JavaScript value handed to the state sink.  `nan` is the number `NaN`;
`fmtPair x y` stands for the template string `` `${x};${y}` `` built for
`gps.position` / `gps.latlon` (the exact number-to-string rendering is
abstracted by the pair, which determines it). -/
inductive JVal where
  | nan : JVal
  | num (q : ℚ) : JVal
  | str (s : Str) : JVal
  | bool (b : Bool) : JVal
  | fmtPair (x y : ℚ) : JVal
deriving DecidableEq, Repr

/-- Embed a possibly-`NaN` number as a state value. -/
def ofJNum (x : Option ℚ) : JVal :=
  match x with
  | none => .nan
  | some q => .num q

/-- Embed a possibly-`NaN` integer (an epoch-millisecond value). -/
def ofJInt (x : Option Int) : JVal :=
  match x with
  | none => .nan
  | some n => .num (n : ℚ)

/-- JavaScript strict inequality `value !== prev`: `NaN` is unequal to
everything, itself included. -/
def jsStrictNeq (a b : JVal) : Bool :=
  match a, b with
  | .nan, _ => true
  | _, .nan => true
  | a, b => a != b

/-- The `lastStates` cache: channel id ↦ `{ val, ts }` (line 89). -/
abbrev StateMap := List (String × JVal × Int)

/-- Lookup in the `lastStates` map. -/
def lookupState : StateMap → String → Option (JVal × Int)
  | [], _ => none
  | (k, v, t) :: rest, id => if k = id then some (v, t) else lookupState rest id

/-- JS `Map.set`: replace the entry for `id` or append a fresh one. -/
def insertState : StateMap → String → JVal → Int → StateMap
  | [], id, v, t => [(id, v, t)]
  | (k, w, u) :: rest, id, v, t =>
    if k = id then (id, v, t) :: rest else (k, w, u) :: insertState rest id v t

/-- Model of `setStateIfChangedAsync` (`src/main.ts` lines 312–322): returns the
updated cache and whether the value was forwarded to the sink.
`now` is `Date.now()` at the call. -/
def setStateIfChanged (now : Int) (m : StateMap) (id : String) (v : JVal) :
    StateMap × Bool :=
  match lookupState m id with
  | none => (insertState m id v now, true)
  | some (pv, pt) =>
    if jsStrictNeq v pv = false ∧ now - pt < 60000 then (m, false)
    else (insertState m id v now, true)

/-! ## The sentence decoder (`parseData`, lines 324–445) -/

/-- One `setStateIfChangedAsync(id, value)` call issued while decoding. -/
abbrev Call := String × JVal

/-- Access `fields[i]` with JavaScript out-of-range access: `undefined` behaves
like the empty string in every use the decoder makes of a field
(falsiness test, `parseInt`/`parseFloat` giving `NaN`, `nmeaToDecimal`'s
`!coord` test). -/
def fieldD (fs : List Str) (i : Nat) : Str := (fs.get? i).getD []

/-- JS `x.toFixed(2)` converted back to a number: round to two decimal
places, ties away from zero. -/
def toFixed2 (q : ℚ) : ℚ :=
  if q < 0 then -((⌊-q * 100 + 1/2⌋ : ℚ) / 100) else (⌊q * 100 + 1/2⌋ : ℚ) / 100

/-- Calls issued for the timestamp when `parseNmeaDateTime` did not return
`null` (`if (ts !== null) setState('gps.timestamp', ts)`). -/
def timestampCalls (t : Option (Option Int)) : List Call :=
  match t with
  | some ts => [("gps.timestamp", ofJInt ts)]
  | none => []

/-- Calls issued for the four position-derived channels when both
coordinates decoded (`if (lat !== null && lon !== null) ...`), in source
order; nothing otherwise. -/
def positionCalls (lat lon : Option ℚ) : List Call :=
  match lat, lon with
  | some la, some lo =>
    [("gps.latitude", .num la), ("gps.longitude", .num lo),
     ("gps.position", .fmtPair lo la), ("gps.latlon", .fmtPair la lo)]
  | _, _ => []

/-- The GGA branch (lines 356–386): the `setStateIfChangedAsync` calls it
issues, in source order.  (`fix` comes out of `parseInt(...) || 0`, so the
source's `!isNaN(fix)` test is always true.) -/
def decodeGGA (today : Ymd) (lastDate : Str) (fields : List Str) : List Call :=
  let timeStr := fieldD fields 1
  let lat := nmeaToDecimal (fieldD fields 2) (fieldD fields 3)
  let lon := nmeaToDecimal (fieldD fields 4) (fieldD fields 5)
  let fix := jsOrZeroInt (jsParseInt (fieldD fields 6))
  let sats := jsOrZeroInt (jsParseInt (fieldD fields 7))
  let hdop := jsOrZero (jsParseFloat (fieldD fields 8))
  let alt := jsOrZero (jsParseFloat (fieldD fields 9))
  (if ¬ timeStr.isEmpty then
    timestampCalls (parseNmeaDateTime today timeStr lastDate)
  else []) ++
  [("gps.fix_quality", .num (fix : ℚ))] ++
  positionCalls lat lon ++
  [("gps.satellites", .num (sats : ℚ)), ("gps.hdop", .num hdop),
   ("gps.altitude", .num alt), ("info.connection", .bool (decide (0 < fix)))]

/-- The RMC branch (lines 387–421): new carried date and the calls issued,
in source order. -/
def decodeRMC (today : Ymd) (lastDate : Str) (fields : List Str) :
    Str × List Call :=
  let timeStr := fieldD fields 1
  let status := fieldD fields 2
  let lat := nmeaToDecimal (fieldD fields 3) (fieldD fields 4)
  let lon := nmeaToDecimal (fieldD fields 5) (fieldD fields 6)
  let speedKnots := jsOrZero (jsParseFloat (fieldD fields 7))
  let course := jsOrZero (jsParseFloat (fieldD fields 8))
  let dateStr := fieldD fields 9
  let ld' := if ¬ dateStr.isEmpty then dateStr else lastDate
  let dateCalls : List Call :=
    if ¬ dateStr.isEmpty then [("gps.date", .str dateStr)] else []
  let tsCalls : List Call := timestampCalls (parseNmeaDateTime today timeStr dateStr)
  let posCalls : List Call := positionCalls lat lon
  let speedKmh := toFixed2 (speedKnots * (1852 / 1000))
  (ld', dateCalls ++ tsCalls ++ posCalls ++
    [("gps.speed_knots", .num speedKnots), ("gps.speed_kmh", .num speedKmh),
     ("gps.course", .num course),
     ("info.connection", .bool (decide (status = strOf "A")))])

/-- The GSA branch (lines 422–436): the calls issued, in source order. -/
def decodeGSA (fields : List Str) : List Call :=
  let fixMode := fieldD fields 2
  let pdop := jsOrZero (jsParseFloat (fieldD fields 15))
  let hdop := jsOrZero (jsParseFloat (fieldD fields 16))
  let vdop := jsOrZero (jsParseFloat (fieldD fields 17))
  let fixModeLabel :=
    if fixMode = strOf "2" then strOf "2D"
    else if fixMode = strOf "3" then strOf "3D"
    else fixMode
  [("gps.fix_mode", .str fixModeLabel), ("gps.pdop", .num pdop),
   ("gps.hdop", .num hdop), ("gps.vdop", .num vdop)]

/-- JS `text.split(c)` for a one-character separator. -/
def splitOnChar (sep : Char) : Str → List Str
  | [] => [[]]
  | c :: cs =>
    match splitOnChar sep cs with
    | [] => [[]]
    | p :: ps => if c = sep then [] :: p :: ps else (c :: p) :: ps

/-- JS `s.replace(/\r?\n/g, '')`: delete every `\n` together with an
immediately preceding `\r`. -/
def removeRN : Str → Str
  | [] => []
  | '\r' :: '\n' :: rest => removeRN rest
  | '\n' :: rest => removeRN rest
  | c :: rest => c :: removeRN rest

/-- Dispatch on an already-checksum-verified body (lines 350–440):
strip the checksum, split the payload on commas, and branch on the
suffix of `fields[0]`.  Returns the new carried date and the calls. -/
def decodeBody (today : Ymd) (lastDate : Str) (body : Str) : Str × List Call :=
  let payload := payloadOf body
  let fields := splitOnChar ',' payload
  let type := fieldD fields 0
  if (strOf "GGA").isSuffixOf type then (lastDate, decodeGGA today lastDate fields)
  else if (strOf "RMC").isSuffixOf type then decodeRMC today lastDate fields
  else if (strOf "GSA").isSuffixOf type then (lastDate, decodeGSA fields)
  else (lastDate, [])

/-- Classification of one part, for stating which branch ran. -/
inductive PartKind where
  | checksumFail : PartKind
  | gga : PartKind
  | rmc : PartKind
  | gsa : PartKind
  | unknown : PartKind
deriving DecidableEq, Repr

/-- Which branch of `parseData` a prepared body reaches. -/
def classifyBody (body : Str) : PartKind :=
  if ¬ verifyChecksum body then .checksumFail
  else
    let payload := payloadOf body
    let fields := splitOnChar ',' payload
    let type := fieldD fields 0
    if (strOf "GGA").isSuffixOf type then .gga
    else if (strOf "RMC").isSuffixOf type then .rmc
    else if (strOf "GSA").isSuffixOf type then .gsa
    else .unknown

/-- The sentence body one raw part is turned into (lines 331–338):
prepend `$` unless present, erase line terminators, trim, drop the `$`. -/
def partBody (raw : Str) : Str :=
  let sentence := if raw.head? = some '$' then raw else '$' :: raw
  (jsTrim (removeRN sentence)).drop 1

/-- Processing of one raw part of the split (lines 331–443): new carried
date and the calls issued; a part whose prepared string does not start
with `$` or whose checksum fails issues nothing. -/
def processPart (today : Ymd) (lastDate : Str) (raw : Str) : Str × List Call :=
  let sentence := if raw.head? = some '$' then raw else '$' :: raw
  let s := jsTrim (removeRN sentence)
  if s.head? = some '$' then
    let body := s.drop 1
    if verifyChecksum body then decodeBody today lastDate body
    else (lastDate, [])
  else (lastDate, [])

/-- The decomposition of a `parseData` input into raw parts
(lines 326–329): split on `$`, trim, keep the non-empty ones. -/
def splitSentences (text : Str) : List Str :=
  ((splitOnChar '$' text).map jsTrim).filter (fun p => 0 < p.length)

/-- Sequential processing of a list of raw parts, threading the carried
date and concatenating the calls in order. -/
def processParts (today : Ymd) : Str → List Str → Str × List Call
  | lastDate, [] => (lastDate, [])
  | lastDate, p :: ps =>
    let r1 := processPart today lastDate p
    let r2 := processParts today r1.1 ps
    (r2.1, r1.2 ++ r2.2)

/-- Model of `parseData` (lines 324–445) at the level of issued
`setStateIfChangedAsync` calls: new carried date and calls in order. -/
def parseDataCalls (today : Ymd) (lastDate : Str) (text : Str) :
    Str × List Call :=
  processParts today lastDate (splitSentences text)

/-! ## The byte-to-line framer (`processReceivedData`, lines 447–463) -/

/-- Prepend one character to a lines/remainder decomposition: a newline
closes a line immediately; any other character extends the first line if
one exists and otherwise the remainder. -/
def consLine (c : Char) (p : List Str × Str) : List Str × Str :=
  if c = '\n' then (['\n'] :: p.1, p.2)
  else
    match p.1 with
    | [] => ([], c :: p.2)
    | l :: ls => ((c :: l) :: ls, p.2)

/-- Split off every complete (`\n`-terminated, terminator included) line;
the second component is the unterminated remainder. -/
def extractLines : Str → List Str × Str
  | [] => ([], [])
  | c :: cs => consLine c (extractLines cs)

/-- One `processReceivedData(data)` call on the pending buffer: append the
chunk, hand every complete line to `parseData`, keep the rest buffered.
Returns the delivered lines and the new buffer. -/
def feedChunk (buffer chunk : Str) : List Str × Str :=
  extractLines (buffer ++ chunk)

/-- A sequence of `processReceivedData` calls: all delivered lines in
order, and the final pending buffer. -/
def feedAll (buffer : Str) : List Str → List Str × Str
  | [] => ([], buffer)
  | c :: cs =>
    let r1 := feedChunk buffer c
    let r2 := feedAll r1.2 cs
    (r1.1 ++ r2.1, r2.2)

/-! ## Connection lifecycle (`openPort` handlers, lines 484–514;
`closePort`, lines 288–310; UDP handler, lines 533–537) -/

/-- The reconnect-timer cell (`this.reconnectTimer`, line 88): the model
keeps only whether a timer is pending. -/
structure PortTimer where
  pending : Bool
deriving DecidableEq, Repr

/-- Transport events reaching the handlers installed by `openPort`. -/
inductive PortEvent where
  | data : PortEvent
  | errorEvt : PortEvent
  | closeEvt : PortEvent
  | timerFire : PortEvent
deriving DecidableEq, Repr

/-- Effect of one event on the timer cell, together with the delay of a
newly scheduled reconnect attempt (`some 5000`) when one is created:
`data` clears a pending timer (lines 484–490); `error`/`close` run
`this.reconnectTimer ||= setTimeout(..., 5000)` (lines 492–514), a no-op
when a timer is pending; the timer callback nulls the cell before
reopening. -/
def portStep (s : PortTimer) : PortEvent → PortTimer × Option Nat
  | .data => (⟨false⟩, none)
  | .errorEvt => if s.pending then (s, none) else (⟨true⟩, some 5000)
  | .closeEvt => if s.pending then (s, none) else (⟨true⟩, some 5000)
  | .timerFire => (⟨false⟩, none)

/-- A run of events: final timer state and the delays of all reconnect
attempts scheduled along the way. -/
def portRun (s : PortTimer) : List PortEvent → PortTimer × List Nat
  | [] => (s, [])
  | e :: es =>
    let r1 := portStep s e
    let r2 := portRun r1.1 es
    (r2.1, (match r1.2 with | some d => [d] | none => []) ++ r2.2)

/-- The adapter's per-transport mutable state relevant to the receive
buffer: the buffer itself (line 90) and whether the serial handle is
open. -/
structure BufferedPort where
  recvBuffer : Str
  serialOpen : Bool
deriving DecidableEq, Repr

/-- Model of `closePort` (lines 288–310): closes the serial handle; it performs no
assignment to `recvBuffer`. -/
def closePortModel (a : BufferedPort) : BufferedPort :=
  { a with serialOpen := false }

/-- The serial `data` handler (lines 484–490): feeds the chunk to
`processReceivedData` on the shared buffer. -/
def serialDataModel (a : BufferedPort) (chunk : Str) : BufferedPort × List Str :=
  let r := feedChunk a.recvBuffer chunk
  ({ a with recvBuffer := r.2 }, r.1)

/-- The UDP `message` handler (lines 533–537): appends `\n` to the datagram
and feeds it to `processReceivedData` on the same shared buffer. -/
def udpMessageModel (a : BufferedPort) (msg : Str) : BufferedPort × List Str :=
  let r := feedChunk a.recvBuffer (msg ++ ['\n'])
  ({ a with recvBuffer := r.2 }, r.1)

/-! ## Checksum lemmas -/

/-- The rendered computed checksum of a sentence body: the XOR of the
payload as two-or-more uppercase, zero-padded hex digits. -/
def computedChecksum (s : Str) : Str := padStart2 (toHexAux (xorFold (payloadOf s)))

/-- Numeric value of an uppercase hex digit character. -/
def hexVal (c : Char) : Nat := if c ≤ '9' then c.toNat - 48 else c.toNat - 55

/-- Decode a big-endian list of hex digit characters. -/
def fromHexStr (s : Str) : Nat := s.foldl (fun a c => a * 16 + hexVal c) 0

theorem splitAtFirst_eq_none {c : Char} {s : Str} :
    splitAtFirst c s = none ↔ c ∉ s := by
  induction s with
  | nil => simp [splitAtFirst]
  | cons d rest ih =>
    by_cases hd : d = c
    · subst hd; simp [splitAtFirst]
    · simp only [splitAtFirst, if_neg hd]
      cases h : splitAtFirst c rest with
      | none => simpa [h, Ne.symm hd] using ih.mp h
      | some p =>
        simp only [h]
        constructor
        · intro hcontra; cases hcontra
        · intro hmem
          exact absurd (ih.mpr (by simpa [Ne.symm hd] using hmem)) (by simp [h])

theorem hexVal_hexDigitChar : ∀ n < 16, hexVal (hexDigitChar n) = n := by decide

theorem fromHexStr_append_singleton (xs : Str) (c : Char) :
    fromHexStr (xs ++ [c]) = fromHexStr xs * 16 + hexVal c := by
  simp [fromHexStr, List.foldl_append]

theorem fromHexStr_toHexFuel :
    ∀ fuel n, n < 16 ^ fuel → fromHexStr (toHexFuel fuel n) = n := by
  intro fuel
  induction fuel with
  | zero => intro n hn; interval_cases n; rfl
  | succ f ih =>
    intro n hn
    by_cases h16 : n < 16
    · simp only [toHexFuel, if_pos h16, fromHexStr, List.foldl]
      have := hexVal_hexDigitChar n h16
      simpa [fromHexStr] using this
    · simp only [toHexFuel, if_neg h16, fromHexStr_append_singleton]
      have hdiv : n / 16 < 16 ^ f := by
        rw [Nat.div_lt_iff_lt_mul (by omega)]
        calc n < 16 ^ (f + 1) := hn
        _ = 16 ^ f * 16 := by ring
      rw [ih (n / 16) hdiv, hexVal_hexDigitChar (n % 16) (Nat.mod_lt _ (by omega))]
      omega

theorem fromHexStr_toHexAux (n : Nat) : fromHexStr (toHexAux n) = n := by
  refine fromHexStr_toHexFuel (n + 1) n ?_
  calc n < n + 1 := Nat.lt_succ_self n
  _ ≤ 16 ^ (n + 1) := (Nat.lt_pow_self (by omega) _).le

theorem fromHexStr_replicate_zero (k : Nat) (s : Str) :
    fromHexStr (List.replicate k '0' ++ s) = fromHexStr s := by
  induction k with
  | zero => rfl
  | succ m ih =>
    simpa [List.replicate_succ, fromHexStr, hexVal] using ih

theorem fromHexStr_padStart2 (s : Str) : fromHexStr (padStart2 s) = fromHexStr s := by
  unfold padStart2
  split
  · rfl
  · exact fromHexStr_replicate_zero _ s

theorem computedHex_injective {a b : Nat}
    (h : padStart2 (toHexAux a) = padStart2 (toHexAux b)) : a = b := by
  have := congrArg fromHexStr h
  rwa [fromHexStr_padStart2, fromHexStr_padStart2,
    fromHexStr_toHexAux, fromHexStr_toHexAux] at this

theorem xorFold_from (ys : Str) :
    ∀ a, List.foldl (fun x c => x ^^^ c.toNat) a ys = a ^^^ xorFold ys := by
  induction ys with
  | nil => intro a; exact (Nat.xor_zero a).symm
  | cons c rest ih =>
    intro a
    rw [List.foldl_cons, ih]
    have h2 : xorFold (c :: rest) = c.toNat ^^^ xorFold rest := by
      unfold xorFold
      rw [List.foldl_cons, ih (0 ^^^ c.toNat), Nat.zero_xor]
      rfl
    rw [h2, Nat.xor_assoc]

theorem xorFold_append (xs ys : Str) :
    xorFold (xs ++ ys) = xorFold xs ^^^ xorFold ys := by
  unfold xorFold
  rw [List.foldl_append]
  exact xorFold_from ys _

theorem xorFold_cons (c : Char) (s : Str) :
    xorFold (c :: s) = c.toNat ^^^ xorFold s := by
  calc xorFold (c :: s)
      = List.foldl (fun x d => x ^^^ d.toNat) (0 ^^^ c.toNat) s := rfl
    _ = (0 ^^^ c.toNat) ^^^ xorFold s := xorFold_from s _
    _ = c.toNat ^^^ xorFold s := by rw [Nat.zero_xor]

theorem payloadOf_no_star {s : Str} (h : '*' ∉ s) : payloadOf s = s := by
  simp [payloadOf, splitAtFirst_eq_none.mpr h]

theorem char_toNat_injective {c c' : Char} (h : c.toNat = c'.toNat) : c = c' :=
  Char.ext (UInt32.ext h)

/-! ## Claim C1 — coordinate decoding -/

/-- Characterisation of `nmeaToDecimal` following the amended claim C1:
degrees + minutes/60 with fixed-length degree prefix, negated for S/W;
no value when the string lacks a decimal point, is not longer than the
degree-field length, or when the degree prefix or minute suffix fails to
parse as a number. -/
def nmeaToDecimalSpec (coord hemi : Str) : Option ℚ :=
  let degLen : Nat := if hemi = strOf "N" ∨ hemi = strOf "S" then 2 else 3
  if ¬ coord.contains '.' ∨ coord.length ≤ degLen then none
  else
    match jsParseInt (coord.take degLen), jsParseFloat (coord.drop degLen) with
    | some deg, some mn =>
      some ((if hemi = strOf "S" ∨ hemi = strOf "W" then -1 else 1) *
        ((deg : ℚ) + mn / 60))
    | _, _ => none

/-- C1 (counterexample): the coordinate `".123"` with hemisphere `N` has a
decimal point and is longer than the 2-character degree field, yet
`nmeaToDecimal` returns no value (the degree prefix `".1"` parses as `NaN`)
— contradicting the claim that the only no-value cases are a missing
decimal point or a too-short string. -/
theorem C1_counterexample :
    nmeaToDecimal (strOf ".123") (strOf "N") = none ∧
    (strOf ".123").contains '.' = true ∧
    2 < (strOf ".123").length := by
  refine ⟨by decide, by decide, by decide⟩

/-- C1 (amended): `nmeaToDecimal` returns `degrees + minutes/60` — degrees
the integer prefix of fixed length (2 for N/S, 3 otherwise), minutes the
remaining suffix parsed as a float, negated for S/W — and returns no value
exactly when the string lacks a decimal point, is not longer than the
degree-field length, or the degree prefix or minute suffix fails to parse;
in particular `nmeaToDecimal "4331.6629" "N" = 43.527715` and
`nmeaToDecimal "01557.8394" "E" = 15.96399`. -/
theorem C1_nmeaToDecimal_amended :
    (∀ coord hemi, nmeaToDecimal coord hemi = nmeaToDecimalSpec coord hemi) ∧
    nmeaToDecimal (strOf "4331.6629") (strOf "N") =
      some (43527715 / 1000000 : ℚ) ∧
    nmeaToDecimal (strOf "01557.8394") (strOf "E") =
      some (1596399 / 100000 : ℚ) := by
  refine ⟨?_, ?_, ?_⟩
  · intro coord hemi
    unfold nmeaToDecimal nmeaToDecimalSpec
    by_cases hdot : '.' ∈ coord
    case neg => by_cases hempty : coord.isEmpty <;> simp [hempty, hdot]
    · have hne : ¬ coord.isEmpty = true := by
        intro h
        rw [List.isEmpty_iff] at h
        subst h
        simp at hdot
      by_cases hlen :
          coord.length ≤ (if hemi = strOf "N" ∨ hemi = strOf "S" then 2 else 3)
      · simp [hne, hdot, hlen]
      · cases hdeg : jsParseInt
            (coord.take (if hemi = strOf "N" ∨ hemi = strOf "S" then 2 else 3)) with
        | none => simp [hne, hdot, hlen, hdeg]
        | some deg =>
          cases hmin : jsParseFloat
              (coord.drop (if hemi = strOf "N" ∨ hemi = strOf "S" then 2 else 3)) with
          | none => simp [hne, hdot, hlen, hdeg, hmin]
          | some mn =>
            by_cases hsw : hemi = strOf "S" ∨ hemi = strOf "W"
            · simp [hne, hdot, hlen, hdeg, hmin, hsw]
            · simp [hne, hdot, hlen, hdeg, hmin, hsw]
  · simp +decide [nmeaToDecimal, strOf, jsParseInt, jsParseFloat, splitSign,
      natOfDigits, digitVal, isDigit, isJsWs]
    norm_num
  · simp +decide [nmeaToDecimal, strOf, jsParseInt, jsParseFloat, splitSign,
      natOfDigits, digitVal, isDigit, isJsWs]
    norm_num

/-! ## Claim C2 — checksum verification -/

/-- C2 (counterexample): changing the single comma at index 65 of the
fixture body to `*` leaves the computed checksum at `5F` (the XOR of the
remaining suffix `,,` is zero), so changing a single character of a body
does not always change its computed checksum. -/
theorem C2_counterexample :
    (',' : Char) ≠ '*' ∧
    computedChecksum
        (strOf "GNGGA,191721.000,4331.6629,N,01557.8394,E,2,18,0.70,-4.7,M,40.9,M"
          ++ ',' :: strOf ",") =
      computedChecksum
        (strOf "GNGGA,191721.000,4331.6629,N,01557.8394,E,2,18,0.70,-4.7,M,40.9,M"
          ++ '*' :: strOf ",") := by
  refine ⟨by decide, by decide⟩

/-- C2 (amended): a body with no `*` is accepted unconditionally; a body
with a `*` is accepted iff the computed checksum (XOR of the characters
before the first `*` as two uppercase zero-padded hex digits) equals the
whitespace-trimmed text after the `*`, case-insensitively; the computed
checksum of the fixture body is `5F`; and changing a single character
before any `*` to a different character other than `*` changes the
computed checksum. -/
theorem C2_verifyChecksum_amended :
    (∀ body : Str, '*' ∉ body → verifyChecksum body = true) ∧
    (∀ body p a, splitAtFirst '*' body = some (p, a) →
      (verifyChecksum body = true ↔
        computedChecksum body = (jsTrim a).map toUpperChar)) ∧
    computedChecksum
        (strOf "GNGGA,191721.000,4331.6629,N,01557.8394,E,2,18,0.70,-4.7,M,40.9,M,,")
      = strOf "5F" ∧
    (∀ (pre suf : Str) (c c' : Char), c ≠ c' → c' ≠ '*' →
      '*' ∉ pre ++ c :: suf →
      computedChecksum (pre ++ c :: suf) ≠ computedChecksum (pre ++ c' :: suf)) := by
  refine ⟨?_, ?_, by decide, ?_⟩
  · intro body h
    simp [verifyChecksum, splitAtFirst_eq_none.mpr h]
  · intro body p a h
    simp [verifyChecksum, computedChecksum, payloadOf, h]
  · intro pre suf c c' hcc hc' hstar heq
    have hstar2 : '*' ∉ pre ++ c' :: suf := by
      intro hm
      rcases List.mem_append.mp hm with h1 | h2
      · exact hstar (List.mem_append.mpr (Or.inl h1))
      · rcases List.mem_cons.mp h2 with h3 | h4
        · exact hc' h3.symm
        · exact hstar (List.mem_append.mpr (Or.inr (List.mem_cons_of_mem _ h4)))
    unfold computedChecksum at heq
    rw [payloadOf_no_star hstar, payloadOf_no_star hstar2] at heq
    have hx := computedHex_injective heq
    rw [xorFold_append, xorFold_append, xorFold_cons, xorFold_cons] at hx
    have h1 : c.toNat ^^^ xorFold suf = c'.toNat ^^^ xorFold suf := by
      have h0 := congrArg (fun z => xorFold pre ^^^ z) hx
      simpa [← Nat.xor_assoc, Nat.xor_self, Nat.zero_xor] using h0
    have h2 : c.toNat = c'.toNat := by
      have h0 := congrArg (fun z => z ^^^ xorFold suf) h1
      simpa [Nat.xor_assoc, Nat.xor_self, Nat.xor_zero] using h0
    exact hcc (char_toNat_injective h2)

/-- Witness for C2: the amended theorem applied at concrete inputs. -/
theorem C2_witness :
    verifyChecksum (strOf "GNGGA,191721.000") = true ∧
    (verifyChecksum (strOf "A*41 ") = true ↔
      computedChecksum (strOf "A*41 ") = (jsTrim (strOf "41 ")).map toUpperChar) ∧
    computedChecksum (strOf "A" ++ 'B' :: ([] : Str)) ≠
      computedChecksum (strOf "A" ++ 'C' :: ([] : Str)) :=
  ⟨C2_verifyChecksum_amended.1 _ (by decide),
   C2_verifyChecksum_amended.2.1 _ (strOf "A") (strOf "41 ") (by decide),
   C2_verifyChecksum_amended.2.2.2 (strOf "A") ([] : Str) 'B' 'C' (by decide)
     (by decide) (by decide)⟩

/-! ## Claims C4 and C9 — the debounce gate -/

theorem lookupState_insertState (m : StateMap) (id : String) (v : JVal) (t : Int) :
    lookupState (insertState m id v t) id = some (v, t) := by
  induction m with
  | nil => simp [insertState, lookupState]
  | cons e rest ih =>
    obtain ⟨k, w, u⟩ := e
    by_cases hk : k = id
    · simp [insertState, hk, lookupState]
    · simp [insertState, hk, lookupState, ih]

theorem lookupState_insertState_ne (m : StateMap) (id id' : String) (v : JVal)
    (t : Int) (h : id' ≠ id) :
    lookupState (insertState m id v t) id' = lookupState m id' := by
  induction m with
  | nil => simp [insertState, lookupState, Ne.symm h]
  | cons e rest ih =>
    obtain ⟨k, w, u⟩ := e
    by_cases hk : k = id
    · subst hk
      simp [insertState, lookupState, Ne.symm h]
    · simp [insertState, hk, lookupState, ih]

theorem setStateIfChanged_of_none {m : StateMap} {id : String}
    (now : Int) (v : JVal) (h : lookupState m id = none) :
    setStateIfChanged now m id v = (insertState m id v now, true) := by
  unfold setStateIfChanged
  rw [h]

theorem setStateIfChanged_of_some {m : StateMap} {id : String} {pv : JVal}
    {pt : Int} (now : Int) (v : JVal) (h : lookupState m id = some (pv, pt)) :
    setStateIfChanged now m id v =
      if jsStrictNeq v pv = false ∧ now - pt < 60000 then (m, false)
      else (insertState m id v now, true) := by
  unfold setStateIfChanged
  rw [h]

/-- C4 (counterexample): for the value `NaN` the gate forwards twice within
60 seconds even though the recorded value is identical, because JavaScript
strict inequality treats `NaN` as different from itself — the claim's
"writing the same value twice within 60 seconds forwards exactly once"
fails at value `NaN`. -/
theorem C4_counterexample :
    (setStateIfChanged 0 [] "gps.timestamp" .nan).2 = true ∧
    (setStateIfChanged 0 [] "gps.timestamp" .nan).1 = [("gps.timestamp", .nan, 0)] ∧
    (setStateIfChanged 1000 [("gps.timestamp", .nan, 0)] "gps.timestamp" .nan).2
      = true := by
  refine ⟨by decide, by decide, by decide⟩

/-- C4 (amended): the gate forwards iff no value has been recorded for the
channel, or the value differs from the recorded one under JavaScript strict
inequality (under which `NaN` differs from itself), or the recorded value
is at least 60 seconds old; consequently writing the same non-`NaN` value
twice within 60 seconds forwards exactly once, and writing it again once
the first write is at least 60 (e.g. 61) seconds old forwards again. -/
theorem C4_debounce_amended :
    (∀ (now : Int) (m : StateMap) (id : String) (v : JVal),
      (setStateIfChanged now m id v).2 = true ↔
        (lookupState m id = none ∨
          ∃ pv pt, lookupState m id = some (pv, pt) ∧
            (jsStrictNeq v pv = true ∨ 60000 ≤ now - pt))) ∧
    (∀ (t0 t1 t2 : Int) (m : StateMap) (id : String) (v : JVal),
      v ≠ .nan → lookupState m id = none →
      t1 - t0 < 60000 → 60000 ≤ t2 - t0 →
      (setStateIfChanged t0 m id v).2 = true ∧
      (setStateIfChanged t1 (setStateIfChanged t0 m id v).1 id v).2 = false ∧
      (setStateIfChanged t2
        (setStateIfChanged t1 (setStateIfChanged t0 m id v).1 id v).1 id v).2
        = true) := by
  constructor
  · intro now m id v
    cases hm : lookupState m id with
    | none => rw [setStateIfChanged_of_none now v hm]; simp
    | some p =>
      obtain ⟨pv, pt⟩ := p
      rw [setStateIfChanged_of_some now v hm]
      by_cases hc : jsStrictNeq v pv = false ∧ now - pt < 60000
      · obtain ⟨h1, h2⟩ := hc
        rw [if_pos ⟨h1, h2⟩]
        simp [h1]
        omega
      · rw [if_neg hc]
        simp only [true_iff, iff_true]
        refine Or.inr ⟨pv, pt, rfl, ?_⟩
        rcases Bool.eq_false_or_eq_true (jsStrictNeq v pv) with ht | hf
        · exact Or.inl ht
        · refine Or.inr ?_
          by_contra hlt
          exact hc ⟨hf, by omega⟩
  · intro t0 t1 t2 m id v hv hm hlt hge
    have hneq : jsStrictNeq v v = false := by
      cases v <;> simp [jsStrictNeq] at hv ⊢
    have e0 : setStateIfChanged t0 m id v = (insertState m id v t0, true) :=
      setStateIfChanged_of_none t0 v hm
    have e1 : setStateIfChanged t1 (insertState m id v t0) id v
        = (insertState m id v t0, false) := by
      rw [setStateIfChanged_of_some t1 v (lookupState_insertState m id v t0),
        if_pos ⟨hneq, hlt⟩]
    have e2 : (setStateIfChanged t2 (insertState m id v t0) id v).2 = true := by
      rw [setStateIfChanged_of_some t2 v (lookupState_insertState m id v t0),
        if_neg (fun hcon => absurd hcon.2 (by omega))]
    rw [e0]
    exact ⟨rfl, by rw [e1], by rw [e1]; exact e2⟩

/-- Witness for C4: the amended theorem applied at concrete inputs. -/
theorem C4_witness :
    ((setStateIfChanged 50 [("info.connection", JVal.bool true, 0)]
        "info.connection" (.bool false)).2 = true ↔
      (lookupState [("info.connection", JVal.bool true, 0)] "info.connection"
          = none ∨
        ∃ pv pt, lookupState [("info.connection", JVal.bool true, 0)]
            "info.connection" = some (pv, pt) ∧
          (jsStrictNeq (.bool false) pv = true ∨ 60000 ≤ 50 - pt))) ∧
    ((setStateIfChanged 0 [] "gps.hdop" (.num 1)).2 = true ∧
      (setStateIfChanged 1000 (setStateIfChanged 0 [] "gps.hdop" (.num 1)).1
        "gps.hdop" (.num 1)).2 = false ∧
      (setStateIfChanged 61000
        (setStateIfChanged 1000 (setStateIfChanged 0 [] "gps.hdop" (.num 1)).1
          "gps.hdop" (.num 1)).1 "gps.hdop" (.num 1)).2 = true) :=
  ⟨C4_debounce_amended.1 50 _ "info.connection" (.bool false),
   C4_debounce_amended.2 0 1000 61000 [] "gps.hdop" (.num 1)
     (by simp) (by decide) (by decide) (by decide)⟩

/-- C9 (counterexample): a suppressed call leaves the cache entry untouched
— the entry keeps its old timestamp rather than being updated with the
current one, so the cache is not "updated on every evaluated emission
decision (including calls whose emission is suppressed)". -/
theorem C9_counterexample :
    (setStateIfChanged 1000 [("info.connection", JVal.bool true, 0)]
        "info.connection" (.bool true)).1
      = [("info.connection", JVal.bool true, 0)] ∧
    [("info.connection", JVal.bool true, (0 : Int))] ≠
      [("info.connection", JVal.bool true, (1000 : Int))] := by
  refine ⟨by decide, by decide⟩

/-- C9 (amended): the cache entry for a channel is created lazily on the
first value, is rewritten with the new value and current timestamp exactly
on the calls that forward, is left entirely unchanged by suppressed calls,
is never removed, and the entries of all other channels are unaffected. -/
theorem C9_cache_amended :
    (∀ (now : Int) (m : StateMap) (id : String) (v : JVal),
      lookupState m id = none →
      (setStateIfChanged now m id v).1 = insertState m id v now ∧
      lookupState (setStateIfChanged now m id v).1 id = some (v, now)) ∧
    (∀ (now : Int) (m : StateMap) (id : String) (v : JVal),
      (setStateIfChanged now m id v).2 = true →
      (setStateIfChanged now m id v).1 = insertState m id v now) ∧
    (∀ (now : Int) (m : StateMap) (id : String) (v : JVal),
      (setStateIfChanged now m id v).2 = false →
      (setStateIfChanged now m id v).1 = m) ∧
    (∀ (now : Int) (m : StateMap) (id : String) (v : JVal) (id' : String),
      lookupState m id' ≠ none →
      lookupState (setStateIfChanged now m id v).1 id' ≠ none) ∧
    (∀ (now : Int) (m : StateMap) (id : String) (v : JVal) (id' : String),
      id' ≠ id →
      lookupState (setStateIfChanged now m id v).1 id' = lookupState m id') := by
  have hshape : ∀ (now : Int) (m : StateMap) (id : String) (v : JVal),
      (setStateIfChanged now m id v).1 = m ∨
      (setStateIfChanged now m id v).1 = insertState m id v now := by
    intro now m id v
    cases hm : lookupState m id with
    | none => rw [setStateIfChanged_of_none now v hm]; exact Or.inr rfl
    | some p =>
      obtain ⟨pv, pt⟩ := p
      rw [setStateIfChanged_of_some now v hm]
      by_cases hc : jsStrictNeq v pv = false ∧ now - pt < 60000
      · rw [if_pos hc]; exact Or.inl rfl
      · rw [if_neg hc]; exact Or.inr rfl
  refine ⟨?_, ?_, ?_, ?_, ?_⟩
  · intro now m id v hm
    rw [setStateIfChanged_of_none now v hm]
    exact ⟨rfl, lookupState_insertState m id v now⟩
  · intro now m id v hemit
    cases hm : lookupState m id with
    | none => rw [setStateIfChanged_of_none now v hm]
    | some p =>
      obtain ⟨pv, pt⟩ := p
      rw [setStateIfChanged_of_some now v hm] at hemit ⊢
      by_cases hc : jsStrictNeq v pv = false ∧ now - pt < 60000
      · rw [if_pos hc] at hemit
        cases hemit
      · rw [if_neg hc]
  · intro now m id v hskip
    cases hm : lookupState m id with
    | none =>
      rw [setStateIfChanged_of_none now v hm] at hskip
      cases hskip
    | some p =>
      obtain ⟨pv, pt⟩ := p
      rw [setStateIfChanged_of_some now v hm] at hskip ⊢
      by_cases hc : jsStrictNeq v pv = false ∧ now - pt < 60000
      · rw [if_pos hc]
      · rw [if_neg hc] at hskip
        cases hskip
  · intro now m id v id' hne
    rcases hshape now m id v with h | h
    · rw [h]; exact hne
    · rw [h]
      by_cases hid : id' = id
      · subst hid
        rw [lookupState_insertState]
        simp
      · rw [lookupState_insertState_ne m id id' v now hid]
        exact hne
  · intro now m id v id' hid
    rcases hshape now m id v with h | h
    · rw [h]
    · rw [h, lookupState_insertState_ne m id id' v now hid]

/-- Witness for C9: the amended theorem applied at concrete inputs. -/
theorem C9_witness :
    ((setStateIfChanged 7 [] "gps.course" (.num 3)).1
        = insertState [] "gps.course" (.num 3) 7 ∧
      lookupState (setStateIfChanged 7 [] "gps.course" (.num 3)).1 "gps.course"
        = some (.num 3, 7)) ∧
    (setStateIfChanged 1000 [("a", JVal.bool true, 0)] "a" (.bool true)).1
      = [("a", JVal.bool true, 0)] ∧
    lookupState (setStateIfChanged 1000 [("a", JVal.bool true, 0)] "a"
      (.bool true)).1 "b" = lookupState [("a", JVal.bool true, 0)] "b" :=
  ⟨C9_cache_amended.1 7 [] "gps.course" (.num 3) (by decide),
   C9_cache_amended.2.2.1 1000 [("a", JVal.bool true, 0)] "a" (.bool true)
     (by decide),
   C9_cache_amended.2.2.2.2 1000 [("a", JVal.bool true, 0)] "a" (.bool true) "b"
     (by decide)⟩

/-! ## Claim C5 — the byte-to-line framer -/

theorem extractLines_cons (c : Char) (cs : Str) :
    extractLines (c :: cs) = consLine c (extractLines cs) := rfl

theorem consLine_nl (p : List Str × Str) :
    consLine '\n' p = (['\n'] :: p.1, p.2) := by
  simp [consLine]

theorem consLine_of_nil {c : Char} {p : List Str × Str} (hc : c ≠ '\n')
    (hp : p.1 = []) : consLine c p = ([], c :: p.2) := by
  unfold consLine
  rw [if_neg hc, hp]

theorem consLine_of_cons {c : Char} {p : List Str × Str} {l : Str}
    {ls : List Str} (hc : c ≠ '\n') (hp : p.1 = l :: ls) :
    consLine c p = ((c :: l) :: ls, p.2) := by
  unfold consLine
  rw [if_neg hc, hp]

theorem extractLines_flatten (s : Str) :
    (extractLines s).1.flatten ++ (extractLines s).2 = s := by
  induction s with
  | nil => rfl
  | cons c cs ih =>
    rw [extractLines_cons]
    by_cases hc : c = '\n'
    · subst hc
      rw [consLine_nl]
      simpa using ih
    · cases hl : (extractLines cs).1 with
      | nil =>
        rw [consLine_of_nil hc hl]
        have h2 : (extractLines cs).2 = cs := by
          have h := ih
          rw [hl] at h
          simpa using h
        simp [h2]
      | cons l ls =>
        rw [consLine_of_cons hc hl]
        rw [hl] at ih
        simp only [List.flatten_cons, List.cons_append, List.append_assoc] at ih ⊢
        rw [ih]

theorem extractLines_snd_no_newline (s : Str) : '\n' ∉ (extractLines s).2 := by
  induction s with
  | nil => simp [extractLines]
  | cons c cs ih =>
    rw [extractLines_cons]
    by_cases hc : c = '\n'
    · subst hc
      rw [consLine_nl]
      exact ih
    · cases hl : (extractLines cs).1 with
      | nil =>
        rw [consLine_of_nil hc hl]
        intro hm
        rcases List.mem_cons.mp hm with h | h
        · exact hc h.symm
        · exact ih h
      | cons l ls =>
        rw [consLine_of_cons hc hl]
        exact ih

theorem extractLines_line_shape (s : Str) :
    ∀ l ∈ (extractLines s).1, ∃ q, l = q ++ ['\n'] ∧ '\n' ∉ q := by
  induction s with
  | nil => simp [extractLines]
  | cons c cs ih =>
    rw [extractLines_cons]
    by_cases hc : c = '\n'
    · subst hc
      rw [consLine_nl]
      intro l hl
      rcases List.mem_cons.mp hl with h | h
      · exact ⟨[], by simp [h], by simp⟩
      · exact ih l h
    · cases hl : (extractLines cs).1 with
      | nil =>
        rw [consLine_of_nil hc hl]
        simp
      | cons t ts =>
        rw [consLine_of_cons hc hl]
        intro l hmem
        rcases List.mem_cons.mp hmem with h | h
        · obtain ⟨q, hq, hnq⟩ := ih t (by rw [hl]; exact List.mem_cons_self t ts)
          refine ⟨c :: q, by simp [h, hq], ?_⟩
          intro hm
          rcases List.mem_cons.mp hm with h2 | h2
          · exact hc h2.symm
          · exact hnq h2
        · exact ih l (by rw [hl]; exact List.mem_cons_of_mem t h)

theorem extractLines_of_no_newline {s : Str} (h : '\n' ∉ s) :
    extractLines s = ([], s) := by
  induction s with
  | nil => rfl
  | cons c cs ih =>
    have hc : c ≠ '\n' := fun he => h (he ▸ List.mem_cons_self c cs)
    have hcs : '\n' ∉ cs := fun hm => h (List.mem_cons_of_mem c hm)
    rw [extractLines_cons, ih hcs, consLine_of_nil hc rfl]

theorem extractLines_append (x y : Str) :
    extractLines (x ++ y) =
      ((extractLines x).1 ++ (extractLines ((extractLines x).2 ++ y)).1,
       (extractLines ((extractLines x).2 ++ y)).2) := by
  induction x with
  | nil => simp [extractLines]
  | cons c x' ih =>
    by_cases hc : c = '\n'
    · subst hc
      have lhs : extractLines (('\n' :: x') ++ y)
          = consLine '\n' (extractLines (x' ++ y)) := rfl
      rw [lhs, consLine_nl, ih, extractLines_cons, consLine_nl]
      simp
    · cases hl : (extractLines x').1 with
      | nil =>
        have h2 : (extractLines x').2 = x' := by
          have h := extractLines_flatten x'
          rw [hl] at h
          simpa using h
        have hout : extractLines (c :: x') = ([], c :: x') := by
          rw [extractLines_cons, consLine_of_nil hc hl, h2]
        have lhs : extractLines ((c :: x') ++ y)
            = extractLines (c :: (x' ++ y)) := rfl
        rw [lhs, hout]
        simp
      | cons l ls =>
        have hout : extractLines (c :: x')
            = ((c :: l) :: ls, (extractLines x').2) := by
          rw [extractLines_cons, consLine_of_cons hc hl]
        have lhs : extractLines ((c :: x') ++ y)
            = consLine c (extractLines (x' ++ y)) := rfl
        rw [lhs, ih, hout, hl]
        rw [consLine_of_cons hc rfl]
        simp

theorem feedAll_shift (chunks : List Str) :
    ∀ buf : Str, '\n' ∉ buf →
      feedAll buf chunks = extractLines (buf ++ chunks.flatten) := by
  induction chunks with
  | nil =>
    intro buf h
    rw [List.flatten_nil, List.append_nil, extractLines_of_no_newline h]
    rfl
  | cons c cs ih =>
    intro buf h
    have hrem : '\n' ∉ (extractLines (buf ++ c)).2 :=
      extractLines_snd_no_newline (buf ++ c)
    have h2 := ih (extractLines (buf ++ c)).2 hrem
    have h3 := extractLines_append (buf ++ c) cs.flatten
    show ((feedChunk buf c).1 ++ (feedAll (feedChunk buf c).2 cs).1,
          (feedAll (feedChunk buf c).2 cs).2) = _
    simp only [feedChunk]
    rw [h2, List.flatten_cons, ← List.append_assoc, h3]

/-- C5: framing is invariant under fragmentation: feeding any chunk
sequence (starting from an empty buffer) delivers exactly the
newline-terminated lines of the full concatenation, in order; every
delivered line ends in `\n` with no interior newline; the delivered
lines followed by the final buffered remainder reassemble the input
exactly, and the remainder holds no newline.  In particular the two
chunks `"$GNRMC,191721.000,A*7D\n$GNG"` and `"GA,4331.6629,N"` — the
split falling inside the second sentence — deliver exactly the RMC line,
with the complete GGA text left buffered. -/
theorem C5_framer :
    (∀ chunks : List Str, feedAll [] chunks = extractLines chunks.flatten) ∧
    (∀ s : Str, (extractLines s).1.flatten ++ (extractLines s).2 = s) ∧
    (∀ (s : Str) (l : Str), l ∈ (extractLines s).1 →
      ∃ q, l = q ++ ['\n'] ∧ '\n' ∉ q) ∧
    (∀ s : Str, '\n' ∉ (extractLines s).2) ∧
    feedAll [] [strOf "$GNRMC,191721.000,A*7D\n$GNG", strOf "GA,4331.6629,N"]
      = ([strOf "$GNRMC,191721.000,A*7D\n"], strOf "$GNGGA,4331.6629,N") := by
  refine ⟨?_, extractLines_flatten, extractLines_line_shape,
    extractLines_snd_no_newline, by decide⟩
  intro chunks
  have h := feedAll_shift chunks [] (by simp)
  simpa using h

/-- Witness for C5: the line-shape conjunct applied at a concrete input. -/
theorem C5_witness :
    ∃ q, strOf "ab\n" = q ++ ['\n'] ∧ '\n' ∉ q :=
  C5_framer.2.2.1 (strOf "ab\ncd") (strOf "ab\n") (by decide)

/-! ## Claim C6 — the reconnect timer -/

/-- C6: a reconnect attempt is scheduled only with the fixed 5-second
(5000 ms) delay and only when no timer is pending; a close or error event
with no pending timer schedules exactly one; two consecutive close events
before the timer fires schedule exactly one attempt in total; and inbound
data clears any pending timer. -/
theorem C6_reconnect_timer :
    (∀ (s : PortTimer) (e : PortEvent) (d : Nat),
      (portStep s e).2 = some d → d = 5000 ∧ s.pending = false) ∧
    (∀ s : PortTimer, s.pending = false →
      (portStep s .closeEvt).2 = some 5000 ∧
      (portStep s .errorEvt).2 = some 5000) ∧
    (∀ s : PortTimer, s.pending = false →
      (portRun s [.closeEvt, .closeEvt]).2 = [5000]) ∧
    (∀ s : PortTimer, (portStep s .data).1.pending = false) := by
  refine ⟨?_, ?_, ?_, ?_⟩
  · intro s e d h
    obtain ⟨p⟩ := s
    cases p <;> cases e <;> simp_all [portStep]
  · intro s h
    obtain ⟨p⟩ := s
    cases p with
    | false => exact ⟨rfl, rfl⟩
    | true => simp at h
  · intro s h
    obtain ⟨p⟩ := s
    cases p with
    | false => rfl
    | true => simp at h
  · intro s
    rfl

/-- Witness for C6: the theorem applied at the no-pending-timer state. -/
theorem C6_witness :
    ((5000 : Nat) = 5000 ∧ (PortTimer.mk false).pending = false) ∧
    ((portStep ⟨false⟩ .closeEvt).2 = some 5000 ∧
      (portStep ⟨false⟩ .errorEvt).2 = some 5000) ∧
    (portRun ⟨false⟩ [.closeEvt, .closeEvt]).2 = [5000] :=
  ⟨C6_reconnect_timer.1 ⟨false⟩ .closeEvt 5000 (by decide),
   C6_reconnect_timer.2.1 ⟨false⟩ rfl,
   C6_reconnect_timer.2.2.1 ⟨false⟩ rfl⟩

/-! ## Claim C8 — the pending receive buffer -/

/-- C8 (counterexample): `closePort` performs no assignment to
`recvBuffer`: closing the transport with `"abc"` buffered leaves `"abc"`
buffered — the buffer is not "cleared entirely whenever the transport
closes". -/
theorem C8_counterexample :
    (closePortModel ⟨strOf "abc", true⟩).recvBuffer = strOf "abc" ∧
    strOf "abc" ≠ ([] : Str) := by
  refine ⟨rfl, by decide⟩

/-- C8 (amended): the pending receive buffer grows only by appending the
incoming frame and shrinks only by removing the delivered line prefix (the
delivered lines followed by the new buffer reassemble the old buffer plus
the chunk, for both the serial and the UDP source, which share the same
buffer); closing the transport leaves the buffer unchanged. -/
theorem C8_buffer_amended :
    (∀ (a : BufferedPort) (chunk : Str),
      (serialDataModel a chunk).2.flatten ++ (serialDataModel a chunk).1.recvBuffer
        = a.recvBuffer ++ chunk) ∧
    (∀ (a : BufferedPort) (msg : Str),
      (udpMessageModel a msg).2.flatten ++ (udpMessageModel a msg).1.recvBuffer
        = a.recvBuffer ++ (msg ++ ['\n'])) ∧
    (∀ a : BufferedPort, (closePortModel a).recvBuffer = a.recvBuffer) := by
  refine ⟨?_, ?_, fun a => rfl⟩
  · intro a chunk
    exact extractLines_flatten (a.recvBuffer ++ chunk)
  · intro a msg
    exact extractLines_flatten (a.recvBuffer ++ (msg ++ ['\n']))

/-! ## Claim C3 — date carry-over -/

theorem decodeRMC_lastDate (today : Ymd) (ld : Str) (fields : List Str)
    (h : ¬ (fieldD fields 9).isEmpty = true) :
    (decodeRMC today ld fields).1 = fieldD fields 9 := by
  simp [decodeRMC, h]

theorem decodeGGA_timestamp_mem (today : Ymd) (ld : Str) (fields : List Str)
    (ts : Option Int) (h1 : ¬ (fieldD fields 1).isEmpty = true)
    (h2 : parseNmeaDateTime today (fieldD fields 1) ld = some ts) :
    ("gps.timestamp", ofJInt ts) ∈ decodeGGA today ld fields := by
  simp [decodeGGA, h1, h2, timestampCalls]

theorem parseNmeaDateTimeParts_year (today : Ymd) (timeStr dateStr : Str)
    (yy : Int) (hne : ¬ dateStr.isEmpty = true) (hlen : 6 ≤ dateStr.length)
    (hyy : jsParseInt (orStr (jsSlice dateStr 4 6) (strOf "0")) = some yy) :
    (parseNmeaDateTimeParts today timeStr dateStr).year =
      some (if 70 ≤ yy then 1900 + yy else 2000 + yy) := by
  unfold parseNmeaDateTimeParts
  rw [if_pos ⟨hne, hlen⟩]
  simp [hyy]

theorem secFloat_120000 :
    jsParseFloat (orStr (jsSliceFrom (strOf "120000.000") 4) (strOf "0"))
      = some 0 := by
  simp +decide [jsParseFloat, orStr, jsSliceFrom, strOf, splitSign,
    natOfDigits, digitVal, isDigit, isJsWs]

theorem parts_120000_230125 (today : Ymd) :
    parseNmeaDateTimeParts today (strOf "120000.000") (strOf "230125")
      = ⟨some 2025, some 0, some 23, some 12, some 0, some 0, some 0⟩ := by
  unfold parseNmeaDateTimeParts
  rw [if_pos ⟨by decide, by decide⟩]
  rw [secFloat_120000]
  simp only [DtParts.mk.injEq, jsFloor, jsRound, Option.map_some]
  refine ⟨by decide, by decide, by decide, by decide, by decide, ?_, ?_⟩
  · norm_num
  · norm_num

theorem parseNmea_120000_230125 (today : Ymd) :
    parseNmeaDateTime today (strOf "120000.000") (strOf "230125")
      = some (some 1737633600000) := by
  unfold parseNmeaDateTime
  rw [if_neg (by decide), parts_120000_230125 today]
  rw [show dateUTCj ⟨some 2025, some 0, some 23, some 12, some 0, some 0, some 0⟩
      = some 1737633600000 from by decide]

/-- C3: every RMC sentence with a non-empty date field updates the carried
date to that field; a GGA sentence computes its timestamp from the carried
date; a two-digit year `yy` maps to `1900 + yy` when `yy ≥ 70` and to
`2000 + yy` otherwise; and concretely, decoding an RMC body with date
`230125` carries `"230125"`, after which a time-only GGA body emits the
timestamp `Date.UTC(2025, 0, 23, 12, 0, 0, 0)`, whose parts are day 23,
month index 0, year 2025. -/
theorem C3_date_carry :
    (∀ (today : Ymd) (ld : Str) (fields : List Str),
      ¬ (fieldD fields 9).isEmpty = true →
      (decodeRMC today ld fields).1 = fieldD fields 9) ∧
    (∀ (today : Ymd) (ld : Str) (fields : List Str) (ts : Option Int),
      ¬ (fieldD fields 1).isEmpty = true →
      parseNmeaDateTime today (fieldD fields 1) ld = some ts →
      ("gps.timestamp", ofJInt ts) ∈ decodeGGA today ld fields) ∧
    (∀ (today : Ymd) (timeStr dateStr : Str) (yy : Int),
      ¬ dateStr.isEmpty = true → 6 ≤ dateStr.length →
      jsParseInt (orStr (jsSlice dateStr 4 6) (strOf "0")) = some yy →
      (parseNmeaDateTimeParts today timeStr dateStr).year =
        some (if 70 ≤ yy then 1900 + yy else 2000 + yy)) ∧
    (∀ today : Ymd,
      (decodeBody today [] (strOf "GNRMC,191721.000,A,,,,,,,230125,,,A")).1
        = strOf "230125" ∧
      ("gps.timestamp", ofJInt (some 1737633600000)) ∈
        (decodeBody today
          (decodeBody today [] (strOf "GNRMC,191721.000,A,,,,,,,230125,,,A")).1
          (strOf "GNGGA,120000.000,,,,,,,,,M,,M,,")).2 ∧
      (parseNmeaDateTimeParts today (strOf "120000.000") (strOf "230125")).day
        = some 23 ∧
      (parseNmeaDateTimeParts today (strOf "120000.000") (strOf "230125")).month
        = some 0 ∧
      (parseNmeaDateTimeParts today (strOf "120000.000") (strOf "230125")).year
        = some 2025) := by
  refine ⟨decodeRMC_lastDate, decodeGGA_timestamp_mem,
    parseNmeaDateTimeParts_year, ?_⟩
  intro today
  have hrb : decodeBody today [] (strOf "GNRMC,191721.000,A,,,,,,,230125,,,A")
      = decodeRMC today []
        (splitOnChar ',' (strOf "GNRMC,191721.000,A,,,,,,,230125,,,A")) := by
    unfold decodeBody
    rw [show payloadOf (strOf "GNRMC,191721.000,A,,,,,,,230125,,,A")
        = strOf "GNRMC,191721.000,A,,,,,,,230125,,,A" from by decide]
    rw [if_neg (by decide), if_pos (by decide)]
  have hld : (decodeBody today [] (strOf "GNRMC,191721.000,A,,,,,,,230125,,,A")).1
      = strOf "230125" := by
    rw [hrb, decodeRMC_lastDate today []
      (splitOnChar ',' (strOf "GNRMC,191721.000,A,,,,,,,230125,,,A")) (by decide)]
    decide
  refine ⟨hld, ?_, by rw [parts_120000_230125], by rw [parts_120000_230125],
    by rw [parts_120000_230125]⟩
  rw [hld]
  have hgb : decodeBody today (strOf "230125") (strOf "GNGGA,120000.000,,,,,,,,,M,,M,,")
      = (strOf "230125", decodeGGA today (strOf "230125")
          (splitOnChar ',' (strOf "GNGGA,120000.000,,,,,,,,,M,,M,,"))) := by
    unfold decodeBody
    rw [show payloadOf (strOf "GNGGA,120000.000,,,,,,,,,M,,M,,")
        = strOf "GNGGA,120000.000,,,,,,,,,M,,M,," from by decide]
    rw [if_pos (by decide)]
  rw [hgb]
  refine decodeGGA_timestamp_mem today (strOf "230125") _ (some 1737633600000)
    (by decide) ?_
  rw [show fieldD (splitOnChar ',' (strOf "GNGGA,120000.000,,,,,,,,,M,,M,,")) 1
      = strOf "120000.000" from by decide]
  exact parseNmea_120000_230125 today

/-- Witness for C3: the theorem applied at concrete inputs. -/
theorem C3_witness :
    (decodeRMC ⟨2020, 0, 1⟩ [] (splitOnChar ','
        (strOf "GNRMC,191721.000,A,,,,,,,230125,,,A"))).1
      = fieldD (splitOnChar ',' (strOf "GNRMC,191721.000,A,,,,,,,230125,,,A")) 9 ∧
    (parseNmeaDateTimeParts ⟨2020, 0, 1⟩ (strOf "120000.000")
        (strOf "230125")).year = some (if 70 ≤ (25 : Int) then 1900 + 25 else 2000 + 25) :=
  ⟨C3_date_carry.1 ⟨2020, 0, 1⟩ [] _ (by decide),
   C3_date_carry.2.2.1 ⟨2020, 0, 1⟩ (strOf "120000.000") (strOf "230125") 25
     (by decide) (by decide) (by decide)⟩

/-! ## Claim C7 — locality of decode errors -/

theorem positionCalls_of_none {lat lon : Option ℚ}
    (h : lat = none ∨ lon = none) : positionCalls lat lon = [] := by
  rcases h with h | h
  · subst h
    rfl
  · subst h
    cases lat <;> rfl

theorem timestampCalls_ids (t : Option (Option Int)) :
    ∀ e ∈ timestampCalls t, e.1 = "gps.timestamp" := by
  intro e he
  cases t with
  | none => simp [timestampCalls] at he
  | some ts =>
    simp [timestampCalls] at he
    simp [he]

theorem padStart2_length (s : Str) : 2 ≤ (padStart2 s).length := by
  unfold padStart2
  split
  · assumption
  · simp only [List.length_append, List.length_replicate]
    omega

theorem decodeGGA_tail_mem (today : Ymd) (ld : Str) (fields : List Str) :
    ("gps.fix_quality",
        JVal.num ((jsOrZeroInt (jsParseInt (fieldD fields 6)) : ℚ)))
      ∈ decodeGGA today ld fields ∧
    ("gps.satellites",
        JVal.num ((jsOrZeroInt (jsParseInt (fieldD fields 7)) : ℚ)))
      ∈ decodeGGA today ld fields ∧
    ("gps.hdop", JVal.num (jsOrZero (jsParseFloat (fieldD fields 8))))
      ∈ decodeGGA today ld fields ∧
    ("gps.altitude", JVal.num (jsOrZero (jsParseFloat (fieldD fields 9))))
      ∈ decodeGGA today ld fields := by
  refine ⟨?_, ?_, ?_, ?_⟩ <;> simp [decodeGGA]

theorem decodeRMC_tail_mem (today : Ymd) (ld : Str) (fields : List Str) :
    ("gps.speed_knots", JVal.num (jsOrZero (jsParseFloat (fieldD fields 7))))
      ∈ (decodeRMC today ld fields).2 ∧
    ("gps.course", JVal.num (jsOrZero (jsParseFloat (fieldD fields 8))))
      ∈ (decodeRMC today ld fields).2 := by
  constructor <;> simp [decodeRMC]

theorem decodeGSA_mem (fields : List Str) :
    ("gps.pdop", JVal.num (jsOrZero (jsParseFloat (fieldD fields 15))))
      ∈ decodeGSA fields ∧
    ("gps.hdop", JVal.num (jsOrZero (jsParseFloat (fieldD fields 16))))
      ∈ decodeGSA fields ∧
    ("gps.vdop", JVal.num (jsOrZero (jsParseFloat (fieldD fields 17))))
      ∈ decodeGSA fields := by
  refine ⟨?_, ?_, ?_⟩ <;> simp [decodeGSA]

theorem decodeGGA_ids_of_no_position (today : Ymd) (ld : Str)
    (fields : List Str)
    (h : nmeaToDecimal (fieldD fields 2) (fieldD fields 3) = none ∨
         nmeaToDecimal (fieldD fields 4) (fieldD fields 5) = none) :
    ∀ e ∈ decodeGGA today ld fields,
      e.1 = "gps.timestamp" ∨ e.1 = "gps.fix_quality" ∨
      e.1 = "gps.satellites" ∨ e.1 = "gps.hdop" ∨ e.1 = "gps.altitude" ∨
      e.1 = "info.connection" := by
  intro e he
  simp only [decodeGGA, positionCalls_of_none h, List.append_nil,
    List.nil_append, List.mem_append, List.mem_cons, List.mem_singleton,
    List.not_mem_nil, or_false, false_or] at he
  rcases he with (h1 | h1) | h1 | h1 | h1 | h1
  · by_cases ht : ¬ (fieldD fields 1).isEmpty = true
    · rw [if_pos ht] at h1
      exact Or.inl (timestampCalls_ids _ e h1)
    · rw [if_neg ht] at h1
      simp at h1
  all_goals simp [h1]

theorem decodeRMC_ids_of_no_position (today : Ymd) (ld : Str)
    (fields : List Str)
    (h : nmeaToDecimal (fieldD fields 3) (fieldD fields 4) = none ∨
         nmeaToDecimal (fieldD fields 5) (fieldD fields 6) = none) :
    ∀ e ∈ (decodeRMC today ld fields).2,
      e.1 = "gps.date" ∨ e.1 = "gps.timestamp" ∨ e.1 = "gps.speed_knots" ∨
      e.1 = "gps.speed_kmh" ∨ e.1 = "gps.course" ∨ e.1 = "info.connection" := by
  intro e he
  simp only [decodeRMC, positionCalls_of_none h, List.append_nil,
    List.nil_append, List.mem_append, List.mem_cons, List.mem_singleton,
    List.not_mem_nil, or_false, false_or] at he
  rcases he with (h1 | h1) | h1 | h1 | h1 | h1
  · by_cases ht : ¬ (fieldD fields 9).isEmpty = true
    · rw [if_pos ht] at h1
      simp at h1
      simp [h1]
    · rw [if_neg ht] at h1
      simp at h1
  · exact Or.inr (Or.inl (timestampCalls_ids _ e h1))
  all_goals simp [h1]

theorem verifyChecksum_short (body p a : Str)
    (h : splitAtFirst '*' body = some (p, a)) (hlen : (jsTrim a).length < 2) :
    verifyChecksum body = false := by
  unfold verifyChecksum
  rw [h]
  show decide (padStart2 (toHexAux (xorFold p)) = (jsTrim a).map toUpperChar)
      = false
  refine decide_eq_false ?_
  intro heq
  have hl := congrArg List.length heq
  rw [List.length_map] at hl
  have := padStart2_length (toHexAux (xorFold p))
  omega

theorem processParts_skip (today : Ymd) (ld : Str) (p : Str) (ps : List Str)
    (h : verifyChecksum (partBody p) = false) :
    processParts today ld (p :: ps) = processParts today ld ps := by
  simp only [partBody, List.drop_one] at h
  have hp : processPart today ld p = (ld, []) := by
    simp only [processPart]
    by_cases hs :
        (jsTrim (removeRN (if p.head? = some '$' then p else '$' :: p))).head?
          = some '$'
    · rw [if_pos hs, if_neg (by simp [h])]
    · rw [if_neg hs]
  have heq : processParts today ld (p :: ps)
      = ((processParts today (processPart today ld p).1 ps).1,
         (processPart today ld p).2 ++
           (processParts today (processPart today ld p).1 ps).2) := rfl
  rw [heq, hp]
  simp

/-- C7: decode errors stay local.  Numeric fields that fail to parse come
out as 0 (GGA fix quality, satellites, hdop, altitude; RMC speed and
course; GSA pdop/hdop/vdop); a latitude or longitude decode failure
suppresses exactly the four position-derived channels of that sentence
while the remaining fields are still emitted; a body whose post-`*`
checksum text is shorter than two characters (after trimming) is rejected
by the checksum gate; and a part whose body fails checksum verification
contributes nothing and leaves the processing of the following parts
unchanged. -/
theorem C7_error_isolation :
    (∀ (today : Ymd) (ld : Str) (fields : List Str),
      jsParseInt (fieldD fields 6) = none →
        ("gps.fix_quality", JVal.num 0) ∈ decodeGGA today ld fields) ∧
    (∀ (today : Ymd) (ld : Str) (fields : List Str),
      jsParseFloat (fieldD fields 8) = none →
        ("gps.hdop", JVal.num 0) ∈ decodeGGA today ld fields) ∧
    (∀ (today : Ymd) (ld : Str) (fields : List Str),
      jsParseFloat (fieldD fields 7) = none →
        ("gps.speed_knots", JVal.num 0) ∈ (decodeRMC today ld fields).2) ∧
    (∀ fields : List Str,
      jsParseFloat (fieldD fields 15) = none →
        ("gps.pdop", JVal.num 0) ∈ decodeGSA fields) ∧
    (∀ (today : Ymd) (ld : Str) (fields : List Str),
      nmeaToDecimal (fieldD fields 2) (fieldD fields 3) = none ∨
        nmeaToDecimal (fieldD fields 4) (fieldD fields 5) = none →
      (∀ v, ("gps.latitude", v) ∉ decodeGGA today ld fields) ∧
      (∀ v, ("gps.longitude", v) ∉ decodeGGA today ld fields) ∧
      (∀ v, ("gps.position", v) ∉ decodeGGA today ld fields) ∧
      (∀ v, ("gps.latlon", v) ∉ decodeGGA today ld fields) ∧
      ("gps.satellites",
          JVal.num ((jsOrZeroInt (jsParseInt (fieldD fields 7)) : ℚ)))
        ∈ decodeGGA today ld fields ∧
      ("gps.hdop", JVal.num (jsOrZero (jsParseFloat (fieldD fields 8))))
        ∈ decodeGGA today ld fields ∧
      ("gps.altitude", JVal.num (jsOrZero (jsParseFloat (fieldD fields 9))))
        ∈ decodeGGA today ld fields) ∧
    (∀ body p a : Str, splitAtFirst '*' body = some (p, a) →
      (jsTrim a).length < 2 → verifyChecksum body = false) ∧
    (∀ (today : Ymd) (ld : Str) (p : Str) (ps : List Str),
      verifyChecksum (partBody p) = false →
      processParts today ld (p :: ps) = processParts today ld ps) := by
  refine ⟨?_, ?_, ?_, ?_, ?_, verifyChecksum_short, processParts_skip⟩
  · intro today ld fields h
    have hm := (decodeGGA_tail_mem today ld fields).1
    rw [h] at hm
    simpa [jsOrZeroInt] using hm
  · intro today ld fields h
    have hm := (decodeGGA_tail_mem today ld fields).2.2.1
    rw [h] at hm
    simpa [jsOrZero] using hm
  · intro today ld fields h
    have hm := (decodeRMC_tail_mem today ld fields).1
    rw [h] at hm
    simpa [jsOrZero] using hm
  · intro fields h
    have hm := (decodeGSA_mem fields).1
    rw [h] at hm
    simpa [jsOrZero] using hm
  · intro today ld fields h
    have hids := decodeGGA_ids_of_no_position today ld fields h
    have habsent : ∀ (id : String), id ≠ "gps.timestamp" →
        id ≠ "gps.fix_quality" → id ≠ "gps.satellites" → id ≠ "gps.hdop" →
        id ≠ "gps.altitude" → id ≠ "info.connection" →
        ∀ v, (id, v) ∉ decodeGGA today ld fields := by
      intro id n1 n2 n3 n4 n5 n6 v hmem
      rcases hids (id, v) hmem with h' | h' | h' | h' | h' | h'
      · exact n1 h'
      · exact n2 h'
      · exact n3 h'
      · exact n4 h'
      · exact n5 h'
      · exact n6 h'
    refine ⟨habsent _ (by decide) (by decide) (by decide) (by decide)
        (by decide) (by decide),
      habsent _ (by decide) (by decide) (by decide) (by decide) (by decide)
        (by decide),
      habsent _ (by decide) (by decide) (by decide) (by decide) (by decide)
        (by decide),
      habsent _ (by decide) (by decide) (by decide) (by decide) (by decide)
        (by decide),
      (decodeGGA_tail_mem today ld fields).2.1,
      (decodeGGA_tail_mem today ld fields).2.2.1,
      (decodeGGA_tail_mem today ld fields).2.2.2⟩

/-- Witness for C7: the theorem applied at concrete inputs. -/
theorem C7_witness :
    ("gps.hdop", JVal.num 0) ∈ decodeGGA ⟨1970, 0, 1⟩ []
      [strOf "GNGGA", [], [], [], [], [], [], [], strOf "abc", []] ∧
    (∀ v, ("gps.latitude", v) ∉ decodeGGA ⟨1970, 0, 1⟩ []
      [strOf "GNGGA", [], [], [], [], [], [], [], [], []]) ∧
    verifyChecksum (strOf "GNGGA*5") = false ∧
    processParts ⟨1970, 0, 1⟩ [] [strOf "GNGGA*00", strOf "x"]
      = processParts ⟨1970, 0, 1⟩ [] [strOf "x"] :=
  ⟨C7_error_isolation.2.1 ⟨1970, 0, 1⟩ []
      [strOf "GNGGA", [], [], [], [], [], [], [], strOf "abc", []] (by decide),
   (C7_error_isolation.2.2.2.2.1 ⟨1970, 0, 1⟩ []
      [strOf "GNGGA", [], [], [], [], [], [], [], [], []]
      (Or.inl (by decide))).1,
   C7_error_isolation.2.2.2.2.2.1 (strOf "GNGGA*5") (strOf "GNGGA") (strOf "5")
     (by decide) (by decide),
   C7_error_isolation.2.2.2.2.2.2 ⟨1970, 0, 1⟩ [] (strOf "GNGGA*00")
     [strOf "x"] (by decide)⟩

/-! ## Claim C10 — splitting a line on `$` -/

theorem splitOnChar_ne_nil (sep : Char) (s : Str) : splitOnChar sep s ≠ [] := by
  cases s with
  | nil => simp [splitOnChar]
  | cons c cs =>
    unfold splitOnChar
    cases h : splitOnChar sep cs with
    | nil => simp
    | cons p ps => by_cases hc : c = sep <;> simp [hc]

theorem splitOnChar_not_mem (sep : Char) (s : Str) :
    ∀ p ∈ splitOnChar sep s, sep ∉ p := by
  induction s with
  | nil =>
    intro p hp
    simp [splitOnChar] at hp
    subst hp
    simp
  | cons c cs ih =>
    intro p hp
    unfold splitOnChar at hp
    cases h : splitOnChar sep cs with
    | nil => exact absurd h (splitOnChar_ne_nil sep cs)
    | cons q qs =>
      simp only [h] at hp
      by_cases hc : c = sep
      · rw [if_pos hc] at hp
        rcases List.mem_cons.mp hp with rfl | hp2
        · simp
        · exact ih p (by rw [h]; exact hp2)
      · rw [if_neg hc] at hp
        rcases List.mem_cons.mp hp with rfl | hp2
        · intro hm
          rcases List.mem_cons.mp hm with h2 | h2
          · exact hc h2.symm
          · exact ih q (by rw [h]; exact List.mem_cons_self q qs) h2
        · exact ih p (by rw [h]; exact List.mem_cons_of_mem q hp2)

theorem jsTrim_subset (s : Str) : ∀ c ∈ jsTrim s, c ∈ s := by
  intro c hc
  unfold jsTrim at hc
  rw [List.mem_reverse] at hc
  have h1 : c ∈ (s.dropWhile isJsWs).reverse :=
    (List.dropWhile_sublist _).subset hc
  rw [List.mem_reverse] at h1
  exact (List.dropWhile_sublist _).subset h1

theorem removeRN_subset (s : Str) : ∀ c ∈ removeRN s, c ∈ s := by
  induction s using removeRN.induct with
  | case1 => simp [removeRN]
  | case2 rest ih =>
    intro c hc
    exact List.mem_cons_of_mem _ (List.mem_cons_of_mem _ (ih c hc))
  | case3 rest ih =>
    intro c hc
    exact List.mem_cons_of_mem _ (ih c hc)
  | case4 c rest h1 h2 ih =>
    intro c' hc
    have he : removeRN (c :: rest) = c :: removeRN rest := by
      rw [removeRN.eq_def]
      split
      · rename_i heq
        exact (List.cons_ne_nil c rest heq).elim
      · rename_i rest1 heq
        injection heq with heqc heqr
        exact (h1 rest1 heqc heqr).elim
      · rename_i heq
        injection heq with heqc heqr
        exact (h2 heqc).elim
      · rename_i c2 rest2 heq
        injection heq with heqc heqr
        rw [← heqc, ← heqr]
    rw [he] at hc
    rcases List.mem_cons.mp hc with rfl | hmem
    · exact List.mem_cons_self _ _
    · exact List.mem_cons_of_mem _ (ih _ hmem)

theorem verifyChecksum_of_no_star {body : Str} (h : '*' ∉ body) :
    verifyChecksum body = true := by
  unfold verifyChecksum
  rw [splitAtFirst_eq_none.mpr h]

theorem partBody_no_star {raw : Str} (h : '*' ∉ raw) :
    '*' ∉ partBody raw := by
  intro hm
  simp only [partBody] at hm
  have h1 : '*' ∈ jsTrim (removeRN
      (if raw.head? = some '$' then raw else '$' :: raw)) :=
    List.drop_subset 1 _ hm
  have h2 := removeRN_subset _ _ (jsTrim_subset _ _ h1)
  by_cases hr : raw.head? = some '$'
  · rw [if_pos hr] at h2
    exact h h2
  · rw [if_neg hr] at h2
    rcases List.mem_cons.mp h2 with h3 | h3
    · cases h3
    · exact h h3

theorem decodeBody_unknown (today : Ymd) (ld : Str) (body : Str)
    (h1 : ¬ (strOf "GGA").isSuffixOf
        (fieldD (splitOnChar ',' (payloadOf body)) 0) = true)
    (h2 : ¬ (strOf "RMC").isSuffixOf
        (fieldD (splitOnChar ',' (payloadOf body)) 0) = true)
    (h3 : ¬ (strOf "GSA").isSuffixOf
        (fieldD (splitOnChar ',' (payloadOf body)) 0) = true) :
    decodeBody today ld body = (ld, []) := by
  simp only [decodeBody]
  rw [if_neg h1, if_neg h2, if_neg h3]

theorem processParts_append (today : Ymd) (l1 l2 : List Str) :
    ∀ ld : Str,
      processParts today ld (l1 ++ l2) =
        ((processParts today (processParts today ld l1).1 l2).1,
         (processParts today ld l1).2 ++
           (processParts today (processParts today ld l1).1 l2).2) := by
  induction l1 with
  | nil => intro ld; simp [processParts]
  | cons p ps ih =>
    intro ld
    show ((processParts today (processPart today ld p).1 (ps ++ l2)).1,
        (processPart today ld p).2 ++
          (processParts today (processPart today ld p).1 (ps ++ l2)).2) = _
    rw [ih (processPart today ld p).1]
    simp [processParts, List.append_assoc]

/-- C10: `parseData` splits its input on `$`, trims each part, keeps the
non-empty ones, and decodes them sequentially in order (processing of a
concatenation is processing of the first block followed by the second,
threading the carried date); no part of the split contains `$`, so the
decoder always prepends one; a part with no `*` always passes checksum
verification; and a body whose first comma-field does not end in
GGA/RMC/GSA is ignored, producing no calls and leaving the carried date
unchanged. -/
theorem C10_dollar_split :
    (∀ (today : Ymd) (ld : Str) (text : Str),
      parseDataCalls today ld text = processParts today ld (splitSentences text)) ∧
    (∀ (text : Str) (p : Str), p ∈ splitSentences text → '$' ∉ p) ∧
    (∀ (today : Ymd) (ld : Str) (raw : Str), ¬ raw.head? = some '$' →
      processPart today ld raw =
        (if (jsTrim (removeRN ('$' :: raw))).head? = some '$' then
          if verifyChecksum ((jsTrim (removeRN ('$' :: raw))).drop 1) then
            decodeBody today ld ((jsTrim (removeRN ('$' :: raw))).drop 1)
          else (ld, [])
        else (ld, []))) ∧
    (∀ raw : Str, '*' ∉ raw → verifyChecksum (partBody raw) = true) ∧
    (∀ (today : Ymd) (ld : Str) (body : Str),
      ¬ (strOf "GGA").isSuffixOf
          (fieldD (splitOnChar ',' (payloadOf body)) 0) = true →
      ¬ (strOf "RMC").isSuffixOf
          (fieldD (splitOnChar ',' (payloadOf body)) 0) = true →
      ¬ (strOf "GSA").isSuffixOf
          (fieldD (splitOnChar ',' (payloadOf body)) 0) = true →
      decodeBody today ld body = (ld, [])) ∧
    (∀ (today : Ymd) (l1 l2 : List Str) (ld : Str),
      processParts today ld (l1 ++ l2) =
        ((processParts today (processParts today ld l1).1 l2).1,
         (processParts today ld l1).2 ++
           (processParts today (processParts today ld l1).1 l2).2)) := by
  refine ⟨fun _ _ _ => rfl, ?_, ?_, ?_, decodeBody_unknown,
    fun today l1 l2 ld => processParts_append today l1 l2 ld⟩
  · intro text p hp
    simp only [splitSentences, List.mem_filter, List.mem_map] at hp
    obtain ⟨⟨q, hq, rfl⟩, _⟩ := hp
    intro hm
    exact splitOnChar_not_mem '$' text q hq (jsTrim_subset q '$' hm)
  · intro today ld raw hr
    simp only [processPart, if_neg hr]
  · intro raw h
    exact verifyChecksum_of_no_star (partBody_no_star h)

/-- Witness for C10: the theorem applied at concrete inputs. -/
theorem C10_witness :
    '$' ∉ strOf "GNGGA,1" ∧
    verifyChecksum (partBody (strOf "noise")) = true ∧
    decodeBody ⟨1970, 0, 1⟩ (strOf "d") (strOf "noise") = (strOf "d", []) :=
  ⟨C10_dollar_split.2.1 (strOf "$GNGGA,1$x") (strOf "GNGGA,1") (by decide),
   C10_dollar_split.2.2.2.1 (strOf "noise") (by decide),
   C10_dollar_split.2.2.2.2.1 ⟨1970, 0, 1⟩ (strOf "d") (strOf "noise")
     (by decide) (by decide) (by decide)⟩

end SerialGps
